import Mathlib

/-!
Shallow embedding of the DVC-experiments service (src/api.py) and the
report generator (src/list_dvc_experiments.py).

Subprocess calls are modelled by passing their captured output in as an
argument (the stdout text of the listing command, the decoded JSON
document of the show command); everything downstream of those calls is
translated function by function from the Python source.

Character classes of the Python regular expression `(\w+)\s+\[(.+)\]`
are modelled over the ASCII ranges (`\w` as alphanumeric or underscore,
`\s` as the six ASCII whitespace characters); the external tool's
output that this program parses is ASCII.
-/

/-- ASCII range of the regex class `\s`, which is also the set of
characters removed by Python's `str.strip()`. -/
def isPySpace (c : Char) : Bool :=
  c == ' ' || c == '\t' || c == '\n' || c == '\x0b' || c == '\x0c' || c == '\r'

/-- ASCII range of the regex class `\w`: alphanumeric or underscore. -/
def isWordChar (c : Char) : Bool :=
  c.isAlphanum || c == '_'

/-- Python `str.strip()`: drop leading and trailing whitespace. -/
def pyStrip (s : String) : String :=
  String.mk (((s.data.dropWhile isPySpace).reverse.dropWhile isPySpace).reverse)

/-- Python `s.startswith(t)`. -/
def pyStartswith (s t : String) : Bool :=
  t.data.isPrefixOf s.data

/-- Python `n in h` on strings: substring containment. -/
def listContains (n : List Char) : List Char → Bool
  | [] => n.isEmpty
  | c :: rest => n.isPrefixOf (c :: rest) || listContains n rest

/-- The `(.+)\]` tail of the listing regex, applied to the characters
after the literal `[`: the greedy `.+` (which cannot cross a newline)
followed by a literal `]` selects everything up to the last `]` of the
newline-free prefix, and requires that segment to be non-empty. -/
def lastBracketSplit (r : List Char) : Option (List Char) :=
  let nlFree := r.takeWhile (fun c => c != '\n')
  match nlFree.reverse.dropWhile (fun c => c != ']') with
  | c :: tail => if c == ']' && !tail.isEmpty then some tail.reverse else none
  | [] => none

/-- `re.match(r'(\w+)\s+\[(.+)\]', line)`, returning the two capture
groups.  `re.match` anchors at the start of the line only.  Because the
classes `\w`, `\s` and the literal `[` are pairwise disjoint, the greedy
quantifiers never backtrack across each other, so the match is the
maximal word-character run, then the maximal whitespace run (both
non-empty), then `[`, then `lastBracketSplit` for `(.+)\]`. -/
def reMatchExpLine (line : String) : Option (String × String) :=
  let cs := line.data
  let w := cs.takeWhile isWordChar
  let r1 := cs.dropWhile isWordChar
  let s := r1.takeWhile isPySpace
  let r2 := r1.dropWhile isPySpace
  if w.isEmpty || s.isEmpty then none
  else
    match r2 with
    | c :: r =>
      if c == '[' then
        match lastBracketSplit r with
        | some nm => some (String.mk w, String.mk nm)
        | none => none
      else none
    | [] => none

/-- One iteration of the listing loop in `get_experiments_list`:
strip the line, skip it when it is empty or starts with the branch
header `main:`, otherwise apply the regex. -/
def processLine (rawLine : String) : Option (String × String) :=
  let line := pyStrip rawLine
  if line.data.isEmpty || pyStartswith line ("main:") then none
  else reMatchExpLine line

/-- The `for line in lines` loop of `get_experiments_list`, with the
`experiments` accumulator that matched lines are appended to. -/
def expListLoop (acc : List (String × String)) : List String → List (String × String)
  | [] => acc
  | rawLine :: rest =>
    match processLine rawLine with
    | some hn => expListLoop (acc ++ [hn]) rest
    | none => expListLoop acc rest

/-- Python `s.split('\n')`: cut at every newline, keeping empty
segments; the empty string yields one empty segment. -/
def splitLines : List Char → List (List Char)
  | [] => [[]]
  | c :: rest =>
    if c = '\n' then [] :: splitLines rest
    else
      match splitLines rest with
      | l :: ls => (c :: l) :: ls
      | [] => [[c]]

/-- `get_experiments_list` (identical in src/api.py and
src/list_dvc_experiments.py), applied to the captured stdout of
`dvc exp list`: `result.stdout.strip().split('\n')`, then the parsing
loop. -/
def get_experiments_list (stdout : String) : List (String × String) :=
  expListLoop [] ((splitLines (pyStrip stdout).data).map String.mk)

/-! ## Data model of the `dvc exp show --json` document

Typed per section 3 of the design: a sequence of branch items, each
with an optional `experiments` list, each experiment with an optional
`revs` list, each revision with an optional `rev` hash and an optional
`data` object whose optional `params` mapping is keyed by file path.
A parameter file entry has an optional `data` payload (the nested
parameter mapping, whose leaves we take to be integers — no claim
inspects the numeric values) and may carry an `error` field. -/

/-- Inner parameter section: a mapping from names to numbers. -/
abbrev ParamSection : Type := List (String × Int)

/-- A parameter payload: mapping from section names to sections. -/
abbrev ParamsDict : Type := List (String × ParamSection)

/-- A parameter-file entry inside `data.params`: `data` field when the
key is present, and whether an `error` key is present. -/
structure PFile where
  data : Option ParamsDict
  error : Bool
deriving DecidableEq

/-- The `data` object of a revision: optional `params` mapping. -/
structure RevData where
  params : Option (List (String × PFile))
deriving DecidableEq

/-- A revision: optional `rev` hash, optional `data` object. -/
structure RevEntry where
  rev : Option String
  data : Option RevData
deriving DecidableEq

/-- An experiment entry: optional `revs` list. -/
structure ExpEntry where
  revs : Option (List RevEntry)
deriving DecidableEq

/-- A top-level branch item: optional `experiments` list. -/
structure ShowItem where
  experiments : Option (List ExpEntry)
deriving DecidableEq

/-- `rev.get('data', {}).get('params', {})`. -/
def revParamsData (rev : RevEntry) : List (String × PFile) :=
  (rev.data.getD { params := none }).params.getD []

/-- The matching test of `get_experiment_params`:
`commit_hash in rev_hash or rev_hash.startswith(commit_hash)`. -/
def matchesTarget (commit_hash rev_hash : String) : Bool :=
  listContains commit_hash.data rev_hash.data || pyStartswith rev_hash commit_hash

/-- The `params.yaml` fallback of `get_experiment_params`: when the key
is present and its entry has a `data` field, return that field;
otherwise fall through (continue the revision scan). -/
def fallbackParamsYaml (params_data : List (String × PFile)) : Option ParamsDict :=
  match params_data.lookup ("params.yaml") with
  | some params_yaml => params_yaml.data
  | none => none

/-- The body of `get_experiment_params` for a matched revision's
`params_data`: prefer the `dvclive/params.yaml` entry when it has a
`data` field and no `error` field; in every other case fall through to
the `params.yaml` check. -/
def tryParamsData (params_data : List (String × PFile)) : Option ParamsDict :=
  match params_data.lookup ("dvclive/params.yaml") with
  | some dvclive_params =>
    if dvclive_params.data.isSome && !dvclive_params.error then dvclive_params.data
    else fallbackParamsYaml params_data
  | none => fallbackParamsYaml params_data

/-- One iteration of the innermost revision loop of
`get_experiment_params`: `rev_hash = rev.get('rev', '')`, the matching
test, then the two parameter-file checks; `none` means the Python loop
continues with the next revision. -/
def revLookup (commit_hash : String) (rev : RevEntry) : Option ParamsDict :=
  let rev_hash := rev.rev.getD ("")
  if matchesTarget commit_hash rev_hash then tryParamsData (revParamsData rev)
  else none

/-- `get_experiment_params` (identical in src/api.py and
src/list_dvc_experiments.py), applied to the decoded JSON document of
`dvc exp show --json`.  The nested `for` loops with early `return`
are `findSome?`; the truthiness guards `item['experiments']` and
`exp['revs']` skip empty lists (which the loops would anyway). -/
def get_experiment_params (commit_hash : String) (doc : List ShowItem) : Option ParamsDict :=
  doc.findSome? fun item =>
    match item.experiments with
    | some exps =>
      if exps.isEmpty then none
      else
        exps.findSome? fun exp =>
          match exp.revs with
          | some revs =>
            if revs.isEmpty then none
            else revs.findSome? (revLookup commit_hash)
          | none => none
    | none => none

/-! ## Experiment resolution and the HTTP endpoints (src/api.py) -/

/-- The per-entry test of both endpoint resolution loops:
`experiment_id == exp_name or experiment_id == commit_hash or
commit_hash.startswith(experiment_id)` (an entry is
`(commit_hash, exp_name)`). -/
def expMatches (experiment_id : String) (e : String × String) : Bool :=
  experiment_id == e.2 || experiment_id == e.1 || pyStartswith e.1 experiment_id

/-- The resolution loop shared by `get_experiment_parameters` and
`apply_experiment_endpoint`: scan the listed experiments in order and
`break` at the first entry the test accepts. -/
def firstMatch (experiment_id : String) : List (String × String) → Option (String × String)
  | [] => none
  | e :: rest => if expMatches experiment_id e then some e else firstMatch experiment_id rest

/-- Response model `ExperimentParams` of the params endpoint. -/
structure ExperimentParams where
  data_ingestion : ParamSection
  feature_engineering : ParamSection
  model_building : ParamSection
deriving DecidableEq

/-- Outcome of the params endpoint: 404 from the resolution check, 404
from the parameter check, or a 200 response. -/
inductive ParamsResult where
  | http404NotFound
  | http404NoParams
  | http200 (params : ExperimentParams)
deriving DecidableEq

/-- HTTP status of a params-endpoint outcome. -/
def statusCode : ParamsResult → Nat
  | .http404NotFound => 404
  | .http404NoParams => 404
  | .http200 _ => 200

/-- `get_experiment_parameters` endpoint, applied to the listed
experiments and the show document.  Python's `if not commit_hash`
treats an empty-string hash like the `None` of a failed scan; likewise
`if not params` treats the empty mapping like an absent one. -/
def get_experiment_parameters (experiment_id : String)
    (experiments : List (String × String)) (doc : List ShowItem) : ParamsResult :=
  match firstMatch experiment_id experiments with
  | none => .http404NotFound
  | some e =>
    if e.1 = "" then .http404NotFound
    else
      match get_experiment_params e.1 doc with
      | none => .http404NoParams
      | some params =>
        if params.isEmpty then .http404NoParams
        else
          .http200
            { data_ingestion := (params.lookup ("data_ingestion")).getD []
              feature_engineering := (params.lookup ("feature_engineering")).getD []
              model_building := (params.lookup ("model_building")).getD [] }

/-- What the apply endpoint does after its resolution scan: return 404,
or run `subprocess.run(['dvc', 'exp', 'apply', experiment_name])` with
the stored name as the sole command argument (the subsequent response
is built from that external command's outcome). -/
inductive ApplyAction where
  | notFound404
  | applyCmd (experiment_name : String)
deriving DecidableEq

/-- `apply_experiment_endpoint`: re-list, scan with the shared test
(recording `experiment_name = exp_name` at the first hit), 404 when
nothing matched, otherwise invoke `apply_experiment` with the matched
name. -/
def apply_experiment_endpoint (experiment_id : String)
    (experiments : List (String × String)) : ApplyAction :=
  match firstMatch experiment_id experiments with
  | none => .notFound404
  | some e => .applyCmd e.2

/-- HTTP status determined by the apply endpoint itself; the invoking
branch's status (200/400/500) depends on the external command. -/
def applyHTTPStatus : ApplyAction → Option Nat
  | .notFound404 => some 404
  | .applyCmd _ => none

/-! ## Report generator (src/list_dvc_experiments.py)

The script's `get_experiments_list` differs from the service's only in
its failure handling: a failed listing command prints a diagnostic and
returns `[]` instead of raising.  Its `get_experiment_params` returns
`None` on any failure; per-hash results of that effectful call are
passed in as an oracle. -/

/-- Python truthiness of the value `get_experiment_params` returned:
`None` and the empty mapping are falsy. -/
def pyTruthyParams : Option ParamsDict → Bool
  | none => false
  | some p => !p.isEmpty

/-- The script's `get_experiments_list`: parse the captured stdout, or
return the empty list when the listing command failed (`none`). -/
def script_get_experiments_list (listOutput : Option String) : List (String × String) :=
  match listOutput with
  | some stdout => get_experiments_list stdout
  | none => []

/-- Value rendering of `format_params_output`:
`params.get(section, {}).get(key, 'N/A')` interpolated into a line. -/
def secGetStr (params : ParamsDict) (section_ key : String) : String :=
  match ((params.lookup section_).getD []).lookup key with
  | some v => toString v
  | none => "N/A"

/-- `format_params_output`: the fixed human-readable layout, with
`"  No parameters available"` for a falsy argument. -/
def format_params_output (params : Option ParamsDict) : String :=
  if !pyTruthyParams params then "  No parameters available"
  else
    let p := params.getD []
    String.intercalate ("\n")
      ["data_ingestion:",
       "  test_size: " ++ secGetStr p ("data_ingestion") ("test_size"),
       "feature_engineering:",
       "  max_features: " ++ secGetStr p ("feature_engineering") ("max_features"),
       "model_building:",
       "  n_estimators: " ++ secGetStr p ("model_building") ("n_estimators"),
       "  random_state: " ++ secGetStr p ("model_building") ("random_state")]

/-- The banner line `'='*60`. -/
def bannerLine : String := String.mk (List.replicate 60 '=')

/-- The lines the per-experiment loop body prints for one experiment:
banner, then either the formatted parameters or the placeholder when
the looked-up parameters are falsy. -/
def experimentBlock (paramsOf : String → Option ParamsDict) (e : String × String) : List String :=
  ["", bannerLine, "Experiment: " ++ e.2 ++ " (" ++ e.1 ++ ")", bannerLine] ++
    (if pyTruthyParams (paramsOf e.1) then [format_params_output (paramsOf e.1)]
     else ["  Could not retrieve parameters for this experiment"])

/-- `list_dvc_experiments_with_params`: the exit code together with the
printed report lines (the empty-listing diagnostic goes to stderr, the
rest to stdout; both are collected here).  `paramsOf` is the per-hash
outcome of the script's `get_experiment_params`. -/
def list_dvc_experiments_with_params (listOutput : Option String)
    (paramsOf : String → Option ParamsDict) : Nat × List String :=
  let experiments := script_get_experiments_list listOutput
  if experiments.isEmpty then (1, ["No experiments found."])
  else (0, (experiments.map (experimentBlock paramsOf)).flatten)

/-! ## Helper lemmas -/

theorem isPySpace_cases (c : Char) (h : isPySpace c = true) :
    c = ' ' ∨ c = '\t' ∨ c = '\n' ∨ c = '\x0b' ∨ c = '\x0c' ∨ c = '\r' := by
  have h' := h
  simp only [isPySpace, Bool.or_eq_true, beq_iff_eq] at h'
  tauto

theorem space_not_word (c : Char) (h : isPySpace c = true) : isWordChar c = false := by
  rcases isPySpace_cases c h with h' | h' | h' | h' | h' | h' <;> subst h' <;> decide

theorem word_not_space (c : Char) (h : isWordChar c = true) : isPySpace c = false := by
  cases hs : isPySpace c with
  | false => rfl
  | true => exact absurd h (by simp [space_not_word c hs])

theorem takeWhile_dropWhile_append (p : Char → Bool) (l₁ l₂ : List Char)
    (h₁ : ∀ x ∈ l₁, p x = true)
    (h₂ : ∀ c, l₂.head? = some c → p c = false) :
    (l₁ ++ l₂).takeWhile p = l₁ ∧ (l₁ ++ l₂).dropWhile p = l₂ := by
  induction l₁ with
  | nil =>
    simp only [List.nil_append]
    cases l₂ with
    | nil => simp
    | cons c t =>
      have hc : p c = false := h₂ c rfl
      simp [List.takeWhile_cons, List.dropWhile_cons, hc]
  | cons a l ih =>
    have ha : p a = true := h₁ a (by simp)
    have ih' := ih fun x hx => h₁ x (by simp [hx])
    simp [List.takeWhile_cons, List.dropWhile_cons, ha, ih'.1, ih'.2]

theorem takeWhile_eq_self_of_all (p : Char → Bool) (l : List Char)
    (h : ∀ x ∈ l, p x = true) : l.takeWhile p = l := by
  induction l with
  | nil => rfl
  | cons a t ih =>
    simp [List.takeWhile_cons, h a (by simp), ih fun x hx => h x (by simp [hx])]

theorem dropWhile_eq_self_of_head (p : Char → Bool) (l : List Char)
    (h : ∀ c, l.head? = some c → p c = false) : l.dropWhile p = l := by
  cases l with
  | nil => rfl
  | cons a t => simp [List.dropWhile_cons, h a rfl]

theorem pyStrip_eq_self (l : List Char)
    (h1 : ∀ c, l.head? = some c → isPySpace c = false)
    (h2 : ∀ c, l.reverse.head? = some c → isPySpace c = false) :
    pyStrip (String.mk l) = String.mk l := by
  unfold pyStrip
  rw [show (String.mk l).data = l from rfl]
  rw [dropWhile_eq_self_of_head _ _ h1, dropWhile_eq_self_of_head _ _ h2,
    List.reverse_reverse]

theorem findSome?_eq_none_of {α β : Type} (f : α → Option β) (l : List α)
    (h : ∀ x ∈ l, f x = none) : l.findSome? f = none := by
  induction l with
  | nil => rfl
  | cons a t ih =>
    simp [List.findSome?_cons, h a (by simp), ih fun x hx => h x (by simp [hx])]

theorem findSome?_eq_none_iff {α β : Type} (f : α → Option β) (l : List α) :
    l.findSome? f = none ↔ ∀ x ∈ l, f x = none := by
  constructor
  · induction l with
    | nil => intro _ x hx; exact absurd hx (List.not_mem_nil x)
    | cons a t ih =>
      intro h x hx
      cases hfa : f a with
      | some b =>
        simp only [List.findSome?_cons, hfa] at h
        exact Option.noConfusion h
      | none =>
        simp only [List.findSome?_cons, hfa] at h
        rcases List.mem_cons.mp hx with h' | h'
        · subst h'; exact hfa
        · exact ih h x h'
  · exact findSome?_eq_none_of f l

theorem firstMatch_eq_none (i : String) (l : List (String × String))
    (h : ∀ x ∈ l, expMatches i x = false) : firstMatch i l = none := by
  induction l with
  | nil => rfl
  | cons a t ih =>
    simp [firstMatch, h a (by simp), ih fun x hx => h x (by simp [hx])]

theorem firstMatch_append_first (i : String) (pre suf : List (String × String))
    (e : String × String) (hpre : ∀ x ∈ pre, expMatches i x = false)
    (he : expMatches i e = true) : firstMatch i (pre ++ e :: suf) = some e := by
  induction pre with
  | nil => simp [firstMatch, he]
  | cons a t ih =>
    simp [firstMatch, hpre a (by simp), ih fun x hx => hpre x (by simp [hx])]

theorem firstMatch_isSome_of_mem (i : String) (l : List (String × String))
    (e : String × String) (hmem : e ∈ l) (he : expMatches i e = true) :
    (firstMatch i l).isSome = true := by
  induction l with
  | nil => exact absurd hmem (List.not_mem_nil e)
  | cons a t ih =>
    rcases List.mem_cons.mp hmem with h | h
    · subst h; simp [firstMatch, he]
    · cases ha : expMatches i a with
      | true => simp [firstMatch, ha]
      | false => simpa [firstMatch, ha] using ih h

theorem expListLoop_eq (ls : List String) :
    ∀ acc, expListLoop acc ls = acc ++ ls.filterMap processLine := by
  induction ls with
  | nil => intro acc; simp [expListLoop]
  | cons r t ih =>
    intro acc
    cases h : processLine r with
    | none => simp [expListLoop, h, ih, List.filterMap_cons]
    | some hn => simp [expListLoop, h, ih, List.filterMap_cons]

theorem stringData_mk (l : List Char) : (String.mk l).data = l := rfl

theorem reMatch_wellFormed (hash sep name : List Char)
    (hh1 : hash ≠ []) (hh2 : ∀ c ∈ hash, isWordChar c = true)
    (hs1 : sep ≠ []) (hs2 : ∀ c ∈ sep, isPySpace c = true)
    (hn1 : name ≠ []) (hn3 : '\n' ∉ name) :
    reMatchExpLine (String.mk (hash ++ (sep ++ '[' :: (name ++ [']']))))
      = some (String.mk hash, String.mk name) := by
  have hsepHead : ∀ c, (sep ++ '[' :: (name ++ [']'])).head? = some c →
      isWordChar c = false := by
    cases sep with
    | nil => exact absurd rfl hs1
    | cons s0 ss =>
      intro c hc
      simp only [List.cons_append, List.head?_cons, Option.some.injEq] at hc
      subst hc
      exact space_not_word s0 (hs2 s0 (by simp))
  have hbrHead : ∀ c, ('[' :: (name ++ [']'])).head? = some c → isPySpace c = false := by
    intro c hc
    simp only [List.head?_cons, Option.some.injEq] at hc
    subst hc
    decide
  have h1 := takeWhile_dropWhile_append isWordChar hash (sep ++ '[' :: (name ++ [']'])) hh2
    hsepHead
  have h2 := takeWhile_dropWhile_append isPySpace sep ('[' :: (name ++ [']'])) hs2 hbrHead
  have hhe : hash.isEmpty = false := by
    cases hash with
    | nil => exact absurd rfl hh1
    | cons a t => rfl
  have hse : sep.isEmpty = false := by
    cases sep with
    | nil => exact absurd rfl hs1
    | cons a t => rfl
  have hnlFree : (name ++ [']']).takeWhile (fun c => c != '\n') = name ++ [']'] := by
    refine takeWhile_eq_self_of_all _ _ fun x hx => ?_
    rcases List.mem_append.mp hx with h | h
    · exact bne_iff_ne.mpr fun he => hn3 (he ▸ h)
    · simp only [List.mem_singleton] at h
      subst h
      decide
  have hrev : (name ++ [']']).reverse = ']' :: name.reverse := by
    simp
  have hnre : name.reverse.isEmpty = false := by
    cases hr : name.reverse with
    | nil => exact absurd (List.reverse_eq_nil_iff.mp hr) hn1
    | cons a t => rfl
  have hdrop : List.dropWhile (fun c => c != ']') (']' :: name.reverse)
      = ']' :: name.reverse := by
    refine dropWhile_eq_self_of_head _ _ fun c hc => ?_
    simp only [List.head?_cons, Option.some.injEq] at hc
    subst hc
    decide
  simp only [reMatchExpLine, stringData_mk, h1.1, h1.2, h2.1, h2.2, hhe, hse,
    Bool.or_self, Bool.false_eq_true, if_false]
  simp only [lastBracketSplit, hnlFree, hrev, hdrop]
  simp [hnre]

/-- C1: for every listing output, the lister is the per-line filterMap
of the stripped, split output (preserving order); a stripped line of
the well-formed shape `<hash><whitespace>[<name>]` (hash a non-empty
word-character run, name non-empty, bracket-free and newline-free)
that does not start with the branch header extracts exactly
`(hash, name)`; blank lines, `main:` header lines, and lines the regex
rejects contribute nothing; and the listing output
`"main:\nded11c0 [addle-hill]\n\n"` yields exactly
`[("ded11c0", "addle-hill")]`. -/
theorem c1_lister_extraction (stdout : String) (hash sep name : List Char)
    (hhash : hash ≠ [] ∧ ∀ c ∈ hash, isWordChar c = true)
    (hsep : sep ≠ [] ∧ ∀ c ∈ sep, isPySpace c = true)
    (hname : name ≠ [] ∧ '\n' ∉ name)
    (hmain : pyStartswith (String.mk (hash ++ (sep ++ '[' :: (name ++ [']']))))
      ("main:") = false) :
    get_experiments_list stdout
        = ((splitLines (pyStrip stdout).data).map String.mk).filterMap processLine
      ∧ processLine (String.mk (hash ++ (sep ++ '[' :: (name ++ [']']))))
          = some (String.mk hash, String.mk name)
      ∧ (∀ l : String,
          ((pyStrip l).data = [] ∨ pyStartswith (pyStrip l) ("main:") = true ∨
            reMatchExpLine (pyStrip l) = none) →
          processLine l = none)
      ∧ get_experiments_list ("main:\nded11c0 [addle-hill]\n\n")
          = [("ded11c0", "addle-hill")] := by
  refine ⟨?_, ?_, ?_, by decide⟩
  · rw [get_experiments_list, expListLoop_eq, List.nil_append]
  · have hstrip : pyStrip (String.mk (hash ++ (sep ++ '[' :: (name ++ [']']))))
        = String.mk (hash ++ (sep ++ '[' :: (name ++ [']']))) := by
      refine pyStrip_eq_self _ ?_ ?_
      · cases hash with
        | nil => exact absurd rfl hhash.1
        | cons h0 hs =>
          intro c hc
          simp only [List.cons_append, List.head?_cons, Option.some.injEq] at hc
          subst hc
          exact word_not_space h0 (hhash.2 h0 (by simp))
      · intro c hc
        have hrevL : (hash ++ (sep ++ '[' :: (name ++ [']']))).reverse
            = ']' :: ((hash ++ (sep ++ '[' :: name)).reverse) := by
          have hLalt : hash ++ (sep ++ '[' :: (name ++ [']']))
              = (hash ++ (sep ++ '[' :: name)) ++ [']'] := by
            simp
          rw [hLalt]
          simp
        rw [hrevL] at hc
        simp only [List.head?_cons, Option.some.injEq] at hc
        subst hc
        decide
    have hne : (hash ++ (sep ++ '[' :: (name ++ [']']))).isEmpty = false := by
      cases hash with
      | nil => exact absurd rfl hhash.1
      | cons a t => rfl
    rw [processLine]
    simp only [hstrip, stringData_mk, hne, hmain, Bool.or_self, Bool.false_eq_true,
      if_false]
    exact reMatch_wellFormed hash sep name hhash.1 hhash.2 hsep.1 hsep.2 hname.1
      hname.2
  · intro l hl
    rw [processLine]
    rcases hl with h | h | h
    · simp [List.isEmpty_iff.mpr h]
    · simp [h]
    · by_cases hg : ((pyStrip l).data.isEmpty
          || pyStartswith (pyStrip l) ("main:")) = true
      · simp [hg]
      · simp only [Bool.not_eq_true] at hg
        simp [hg, h]

/-- C1 witness: the extraction conjunct at the spec's own scenario
line, with every hypothesis discharged concretely. -/
theorem c1_lister_extraction_witness :
    processLine (String.mk (("ded11c0").data
        ++ ((" ").data ++ '[' :: (("addle-hill").data ++ [']']))))
      = some (String.mk ("ded11c0").data, String.mk ("addle-hill").data) :=
  (c1_lister_extraction ("") ("ded11c0").data (" ").data ("addle-hill").data
    (by decide) (by decide) (by decide) (by decide)).2.1

/-- C2 counterexample: `"a"` is a non-empty prefix of the hash `"a"` of
the listed entry `("a", "y")`, yet the resolver resolves the query
`"a"` to the earlier entry `("ab", "x")` (whose hash also starts with
`"a"`), not to the entry whose hash is `"a"`. -/
theorem c2_resolver_prefix_counterexample :
    pyStartswith ("a") ("a") = true
      ∧ (("a" : String), ("y" : String)) ∈ [(("ab" : String), ("x" : String)), ("a", "y")]
      ∧ firstMatch ("a") [("ab", "x"), ("a", "y")] = some ("ab", "x") := by
  decide

/-- C2 (amended): for an entry with hash `H` and a non-empty prefix `P`
of `H` used as the query, the resolver's test accepts that entry, so
resolution succeeds — and returns exactly that entry whenever no
earlier entry is accepted — and the parameter extractor's matching
predicate matches the revision whose hash is `H`. -/
theorem c2_prefix_resolution_amended (H P : String) (exps : List (String × String))
    (e : String × String) (hmem : e ∈ exps) (hH : e.1 = H) (_hP : P ≠ "")
    (hpre : pyStartswith H P = true) :
    expMatches P e = true
      ∧ (firstMatch P exps).isSome = true
      ∧ (∀ pre suf, exps = pre ++ e :: suf → (∀ x ∈ pre, expMatches P x = false) →
          firstMatch P exps = some e)
      ∧ matchesTarget P H = true := by
  have hm : expMatches P e = true := by
    simp [expMatches, hH, hpre]
  refine ⟨hm, firstMatch_isSome_of_mem P exps e hmem hm, ?_, ?_⟩
  · intro pre suf hdec hprefail
    rw [hdec]
    exact firstMatch_append_first P pre suf e hprefail hm
  · simp [matchesTarget, hpre]

/-- C2 witness: the amended theorem at a concrete one-entry list and
prefix query. -/
theorem c2_prefix_resolution_amended_witness :
    firstMatch ("ded") [(("ded11c0" : String), ("addle-hill" : String))]
      = some ("ded11c0", "addle-hill") :=
  (c2_prefix_resolution_amended ("ded11c0") ("ded") [("ded11c0", "addle-hill")]
    ("ded11c0", "addle-hill") (by decide) rfl (by decide) (by decide)).2.2.1
    [] [] rfl (by simp)

/-- C3: on a matched revision whose params mapping has both a
`dvclive/params.yaml` entry and a `params.yaml` entry, the extractor
returns the former's `data` when it is present without an `error`
field, and otherwise (an `error` field, or no `data` field) returns
the latter's `data` field when present. -/
theorem c3_dvclive_preference (ch : String) (rev : RevEntry) (dv py : PFile)
    (hmatch : matchesTarget ch (rev.rev.getD ("")) = true)
    (hdv : (revParamsData rev).lookup ("dvclive/params.yaml") = some dv)
    (hpy : (revParamsData rev).lookup ("params.yaml") = some py) :
    (∀ d, dv.data = some d → dv.error = false → revLookup ch rev = some d)
      ∧ ((dv.error = true ∨ dv.data = none) →
          ∀ d, py.data = some d → revLookup ch rev = some d) := by
  constructor
  · intro d hd he
    rw [revLookup]
    simp only [hmatch, if_true]
    rw [tryParamsData, hdv]
    simp [hd, he]
  · intro hbad d hd
    have hcond : (dv.data.isSome && !dv.error) = false := by
      rcases hbad with h | h
      · simp [h]
      · simp [h]
    rw [revLookup]
    simp only [hmatch, if_true]
    rw [tryParamsData, hdv]
    simp only [hcond, Bool.false_eq_true, if_false]
    rw [fallbackParamsYaml, hpy]
    exact hd

def wDv3 : PFile :=
  { data := some [("data_ingestion", [("test_size", 2)])], error := false }

def wPy3 : PFile :=
  { data := some [], error := false }

def wRev3 : RevEntry :=
  { rev := some ("abc"),
    data := some { params := some [("dvclive/params.yaml", wDv3), ("params.yaml", wPy3)] } }

/-- C3 witness: the preferred branch at a concrete matched revision
carrying both parameter files. -/
theorem c3_dvclive_preference_witness :
    revLookup ("abc") wRev3 = some [("data_ingestion", [("test_size", 2)])] :=
  (c3_dvclive_preference ("abc") wRev3 wDv3 wPy3
    (by decide) (by decide) (by decide)).1
    [("data_ingestion", [("test_size", 2)])] rfl rfl

/-- C4: both endpoints resolve a user identifier by scanning the listed
experiments in lister order with the per-entry test
`id == name or id == hash or hash.startswith(id)`; the first accepted
entry wins, a list in which no entry is accepted resolves to nothing,
and an unresolved identifier makes the params endpoint (and the apply
endpoint) produce the not-found outcome. -/
theorem c4_resolver_first_match (i : String) :
    (∀ e : String × String,
        expMatches i e = (i == e.2 || i == e.1 || pyStartswith e.1 i))
      ∧ (∀ pre suf (e : String × String), (∀ x ∈ pre, expMatches i x = false) →
          expMatches i e = true → firstMatch i (pre ++ e :: suf) = some e)
      ∧ (∀ l : List (String × String), (∀ x ∈ l, expMatches i x = false) →
          firstMatch i l = none)
      ∧ (∀ exps doc, firstMatch i exps = none →
          get_experiment_parameters i exps doc = .http404NotFound)
      ∧ (∀ exps, firstMatch i exps = none →
          apply_experiment_endpoint i exps = .notFound404) := by
  refine ⟨fun e => rfl, firstMatch_append_first i, firstMatch_eq_none i, ?_, ?_⟩
  · intro exps doc h
    rw [get_experiment_parameters, h]
  · intro exps h
    rw [apply_experiment_endpoint, h]

/-- C4 witness: first-match-wins at a concrete two-entry list. -/
theorem c4_resolver_first_match_witness :
    firstMatch ("h2") [(("h1" : String), ("e1" : String)), ("h2", "e2")]
      = some ("h2", "e2") :=
  (c4_resolver_first_match ("h2")).2.1 [("h1", "e1")] [] ("h2", "e2")
    (by decide) (by decide)

def cexRev1 : RevEntry := { rev := some ("h1"), data := some { params := some [] } }

def cexPy5 : PFile := { data := some [("data_ingestion", [("test_size", 1)])], error := false }

def cexRev2 : RevEntry :=
  { rev := some ("h2"), data := some { params := some [("params.yaml", cexPy5)] } }

def cexDoc5 : List ShowItem := [{ experiments := some [{ revs := some [cexRev1, cexRev2] }] }]

/-- C5 counterexample: the first revision of this document in traversal
order that matches target `"h"` is `cexRev1` (hash `"h1"`, an empty
params mapping — no usable entry); the later revision `"h2"` also
matches and carries `params.yaml` data.  The claim says the extractor
reports the absent outcome; the code returns the later revision's
data instead. -/
theorem c5_first_match_counterexample :
    matchesTarget ("h") ("h1") = true
      ∧ tryParamsData (revParamsData cexRev1) = none
      ∧ get_experiment_params ("h") cexDoc5
          = some [("data_ingestion", [("test_size", 1)])] := by
  decide

theorem get_experiment_params_none_of_unusable (target : String) (doc : List ShowItem)
    (h : ∀ item ∈ doc, ∀ exp ∈ item.experiments.getD [], ∀ rev ∈ exp.revs.getD [],
        matchesTarget target (rev.rev.getD ("")) = true →
        tryParamsData (revParamsData rev) = none) :
    get_experiment_params target doc = none := by
  rw [get_experiment_params]
  refine findSome?_eq_none_of _ _ fun item hitem => ?_
  cases hexp : item.experiments with
  | none => rfl
  | some exps =>
    by_cases he : exps.isEmpty = true
    · simp [he]
    · simp only [Bool.not_eq_true] at he
      simp only [he, Bool.false_eq_true, if_false]
      refine findSome?_eq_none_of _ _ fun exp hexpmem => ?_
      cases hrev : exp.revs with
      | none => rfl
      | some revs =>
        by_cases hre : revs.isEmpty = true
        · simp [hre]
        · simp only [Bool.not_eq_true] at hre
          simp only [hre, Bool.false_eq_true, if_false]
          refine findSome?_eq_none_of _ _ fun rev hrevmem => ?_
          rw [revLookup]
          cases hm : matchesTarget target (rev.rev.getD ("")) with
          | false => simp [hm]
          | true =>
            simp only [hm, if_true]
            exact h item hitem exp (by rw [hexp]; exact hexpmem) rev
              (by rw [hrev]; exact hrevmem) hm

theorem get_experiment_params_none_forward (target : String) (doc : List ShowItem)
    (h : get_experiment_params target doc = none) :
    ∀ item ∈ doc, ∀ exp ∈ item.experiments.getD [], ∀ rev ∈ exp.revs.getD [],
      matchesTarget target (rev.rev.getD ("")) = true →
      tryParamsData (revParamsData rev) = none := by
  intro item hitem exp hexp rev hrev hm
  rw [get_experiment_params] at h
  have hitem' := (findSome?_eq_none_iff _ _).mp h item hitem
  cases hexps : item.experiments with
  | none => simp [hexps] at hexp
  | some exps =>
    simp only [hexps] at hitem'
    simp only [hexps, Option.getD_some] at hexp
    by_cases hie : exps.isEmpty = true
    · rw [List.isEmpty_iff.mp hie] at hexp
      exact absurd hexp (List.not_mem_nil exp)
    · simp only [Bool.not_eq_true] at hie
      simp only [hie, Bool.false_eq_true, if_false] at hitem'
      have hexp' := (findSome?_eq_none_iff _ _).mp hitem' exp hexp
      cases hrevs : exp.revs with
      | none => simp [hrevs] at hrev
      | some revs =>
        simp only [hrevs] at hexp'
        simp only [hrevs, Option.getD_some] at hrev
        by_cases hre : revs.isEmpty = true
        · rw [List.isEmpty_iff.mp hre] at hrev
          exact absurd hrev (List.not_mem_nil rev)
        · simp only [Bool.not_eq_true] at hre
          simp only [hre, Bool.false_eq_true, if_false] at hexp'
          have hrl := (findSome?_eq_none_iff _ _).mp hexp' rev hrev
          rw [revLookup] at hrl
          simp only [hm, if_true] at hrl
          exact hrl

/-- C5 (amended): a matching revision without a usable parameter entry
is skipped and the scan continues with later revisions (dropping such a
revision from the front of the revision scan never changes the scan's
result), and the extractor reports the absent outcome exactly when no
matching revision anywhere in the document has a usable entry. -/
theorem c5_no_usable_revision_amended (target : String) (doc : List ShowItem) :
    (get_experiment_params target doc = none ↔
        ∀ item ∈ doc, ∀ exp ∈ item.experiments.getD [], ∀ rev ∈ exp.revs.getD [],
          matchesTarget target (rev.rev.getD ("")) = true →
          tryParamsData (revParamsData rev) = none)
      ∧ (∀ rev revs, matchesTarget target (rev.rev.getD ("")) = true →
          tryParamsData (revParamsData rev) = none →
          (rev :: revs).findSome? (revLookup target)
            = revs.findSome? (revLookup target)) := by
  refine ⟨⟨get_experiment_params_none_forward target doc,
    get_experiment_params_none_of_unusable target doc⟩, ?_⟩
  intro rev revs hm hnone
  have hrl : revLookup target rev = none := by
    rw [revLookup]
    simp only [hm, if_true]
    exact hnone
  rw [List.findSome?_cons, hrl]

def wErr5 : PFile := { data := some [], error := true }

def wRev5 : RevEntry :=
  { rev := some ("zz"), data := some { params := some [("dvclive/params.yaml", wErr5)] } }

def wDoc5 : List ShowItem := [{ experiments := some [{ revs := some [wRev5] }] }]

/-- C5 witness: both halves applied concretely: a document whose only
matching revision carries an error-marked `dvclive/params.yaml` entry
and no `params.yaml` entry yields the absent outcome, and dropping the
counterexample document's unusable matching revision from the front of
its revision scan leaves the scan result unchanged. -/
theorem c5_no_usable_revision_amended_witness :
    get_experiment_params ("zz") wDoc5 = none
      ∧ (cexRev1 :: [cexRev2]).findSome? (revLookup ("h"))
          = [cexRev2].findSome? (revLookup ("h")) :=
  ⟨(c5_no_usable_revision_amended ("zz") wDoc5).1.mpr (by decide),
   (c5_no_usable_revision_amended ("h") cexDoc5).2 cexRev1 [cexRev2]
     (by decide) (by decide)⟩

/-- C6: whenever the apply endpoint's resolution scan accepts an entry,
the apply command is invoked with that entry's experiment name as its
sole argument — in particular never with a raw identifier that differs
from the resolved name. -/
theorem c6_apply_uses_resolved_name (i : String) (exps : List (String × String))
    (e : String × String) (h : firstMatch i exps = some e) :
    apply_experiment_endpoint i exps = .applyCmd e.2
      ∧ (i ≠ e.2 → apply_experiment_endpoint i exps ≠ .applyCmd i) := by
  have h1 : apply_experiment_endpoint i exps = .applyCmd e.2 := by
    rw [apply_experiment_endpoint, h]
  refine ⟨h1, fun hne hcontra => ?_⟩
  rw [h1] at hcontra
  injection hcontra with h'
  exact hne h'.symm

/-- C6 witness: a hash-prefix identifier resolves to the entry's name,
and the invoked command argument is that name, not the prefix. -/
theorem c6_apply_uses_resolved_name_witness :
    apply_experiment_endpoint ("ded") [(("ded11c0" : String), ("addle-hill" : String))]
        = .applyCmd ("addle-hill")
      ∧ apply_experiment_endpoint ("ded") [("ded11c0", "addle-hill")]
          ≠ .applyCmd ("ded") := by
  have h := c6_apply_uses_resolved_name ("ded") [("ded11c0", "addle-hill")]
    ("ded11c0", "addle-hill") (by decide)
  exact ⟨h.1, h.2 (by decide)⟩

/-- C7: an identifier matching no listed name, no listed hash, and no
hash prefix makes the params endpoint answer HTTP 404, and makes the
apply endpoint answer HTTP 404 without invoking the apply
subcommand. -/
theorem c7_not_found_404 (i : String) (exps : List (String × String))
    (doc : List ShowItem)
    (h : ∀ e ∈ exps, i ≠ e.2 ∧ i ≠ e.1 ∧ pyStartswith e.1 i = false) :
    statusCode (get_experiment_parameters i exps doc) = 404
      ∧ get_experiment_parameters i exps doc = .http404NotFound
      ∧ apply_experiment_endpoint i exps = .notFound404
      ∧ applyHTTPStatus (apply_experiment_endpoint i exps) = some 404
      ∧ ∀ n, apply_experiment_endpoint i exps ≠ .applyCmd n := by
  have hfm : firstMatch i exps = none := by
    refine firstMatch_eq_none i exps fun x hx => ?_
    obtain ⟨h1, h2, h3⟩ := h x hx
    have b1 : (i == x.2) = false := beq_eq_false_iff_ne.mpr h1
    have b2 : (i == x.1) = false := beq_eq_false_iff_ne.mpr h2
    simp [expMatches, b1, b2, h3]
  have hp : get_experiment_parameters i exps doc = .http404NotFound := by
    rw [get_experiment_parameters, hfm]
  have ha : apply_experiment_endpoint i exps = .notFound404 := by
    rw [apply_experiment_endpoint, hfm]
  refine ⟨by rw [hp]; rfl, hp, ha, by rw [ha]; rfl, fun n hc => ?_⟩
  rw [ha] at hc
  exact ApplyAction.noConfusion hc

/-- C7 witness: both endpoints at an identifier unrelated to the single
listed experiment. -/
theorem c7_not_found_404_witness :
    get_experiment_parameters ("zzz") [(("h1" : String), ("e1" : String))] []
        = .http404NotFound
      ∧ apply_experiment_endpoint ("zzz") [("h1", "e1")] = .notFound404 := by
  have h := c7_not_found_404 ("zzz") [("h1", "e1")] [] (by decide)
  exact ⟨h.2.1, h.2.2.1⟩

/-- C8: when the params endpoint resolves the identifier and the
extractor returns a non-empty mapping, the 200 response model carries
all three sections `data_ingestion`, `feature_engineering` and
`model_building`, each taken from the extracted mapping with the empty
mapping as default — so a section missing from the mapping appears as
an empty mapping, not as a missing field or an error. -/
theorem c8_sections_default_empty (i : String) (exps : List (String × String))
    (doc : List ShowItem) (e : String × String) (params : ParamsDict)
    (hres : firstMatch i exps = some e) (hch : e.1 ≠ "")
    (hext : get_experiment_params e.1 doc = some params) (hne : params ≠ []) :
    get_experiment_parameters i exps doc = .http200
        { data_ingestion := (params.lookup ("data_ingestion")).getD [],
          feature_engineering := (params.lookup ("feature_engineering")).getD [],
          model_building := (params.lookup ("model_building")).getD [] }
      ∧ (params.lookup ("data_ingestion") = none →
          (params.lookup ("data_ingestion")).getD [] = ([] : ParamSection))
      ∧ (params.lookup ("feature_engineering") = none →
          (params.lookup ("feature_engineering")).getD [] = ([] : ParamSection))
      ∧ (params.lookup ("model_building") = none →
          (params.lookup ("model_building")).getD [] = ([] : ParamSection)) := by
  have hie : params.isEmpty = false := by
    cases params with
    | nil => exact absurd rfl hne
    | cons a t => rfl
  refine ⟨?_, fun h => by rw [h]; rfl, fun h => by rw [h]; rfl, fun h => by rw [h]; rfl⟩
  rw [get_experiment_parameters]
  simp [hres, hext, hie, hch]

def wPy8 : PFile := { data := some [("data_ingestion", [("test_size", 3)])], error := false }

def wRev8 : RevEntry :=
  { rev := some ("abc"), data := some { params := some [("params.yaml", wPy8)] } }

def wDoc8 : List ShowItem := [{ experiments := some [{ revs := some [wRev8] }] }]

/-- C8 witness: a mapping with only a `data_ingestion` section yields a
200 response in which the two missing sections are empty mappings. -/
theorem c8_sections_default_empty_witness :
    get_experiment_parameters ("exp1") [(("abc" : String), ("exp1" : String))] wDoc8
      = .http200
        { data_ingestion := [("test_size", 3)],
          feature_engineering := [],
          model_building := [] } :=
  (c8_sections_default_empty ("exp1") [("abc", "exp1")] wDoc8 ("abc", "exp1")
    [("data_ingestion", [("test_size", 3)])]
    (by decide) (by decide) (by decide) (by decide)).1

/-- C9: the report generator exits 0 whenever the (possibly failed)
listing yields a non-empty experiment sequence, whatever the
per-experiment parameter lookups do — each falsy lookup contributes the
placeholder line instead — and exits 1 with the "No experiments found."
diagnostic exactly when the experiment sequence is empty, which in
particular is what a failed listing command produces. -/
theorem c9_report_exit_codes (listOutput : Option String)
    (paramsOf : String → Option ParamsDict) :
    (script_get_experiments_list listOutput ≠ [] →
        (list_dvc_experiments_with_params listOutput paramsOf).1 = 0)
      ∧ (script_get_experiments_list listOutput = [] →
          list_dvc_experiments_with_params listOutput paramsOf
            = (1, ["No experiments found."]))
      ∧ (listOutput = none → script_get_experiments_list listOutput = [])
      ∧ (∀ e ∈ script_get_experiments_list listOutput,
          pyTruthyParams (paramsOf e.1) = false →
          ("  Could not retrieve parameters for this experiment")
            ∈ (list_dvc_experiments_with_params listOutput paramsOf).2) := by
  refine ⟨?_, ?_, ?_, ?_⟩
  · intro h
    have hie : (script_get_experiments_list listOutput).isEmpty = false := by
      cases hsc : script_get_experiments_list listOutput with
      | nil => exact absurd hsc h
      | cons a t => rfl
    rw [list_dvc_experiments_with_params]
    simp [hie]
  · intro h
    rw [list_dvc_experiments_with_params]
    simp [h]
  · intro h
    rw [h]
    rfl
  · intro e hmem hfalsy
    have hie : (script_get_experiments_list listOutput).isEmpty = false := by
      cases hsc : script_get_experiments_list listOutput with
      | nil => rw [hsc] at hmem; exact absurd hmem (List.not_mem_nil e)
      | cons a t => rfl
    rw [list_dvc_experiments_with_params]
    simp only [hie, Bool.false_eq_true, if_false]
    rw [List.mem_flatten]
    refine ⟨experimentBlock paramsOf e, List.mem_map_of_mem _ hmem, ?_⟩
    simp [experimentBlock, hfalsy]

/-- C9 witness: one listed experiment whose parameter lookup fails:
exit code 0, and the placeholder line is reported. -/
theorem c9_report_exit_codes_witness :
    (list_dvc_experiments_with_params (some ("main:\nded11c0 [addle-hill]\n\n"))
        (fun _ => none)).1 = 0
      ∧ ("  Could not retrieve parameters for this experiment")
          ∈ (list_dvc_experiments_with_params (some ("main:\nded11c0 [addle-hill]\n\n"))
              (fun _ => none)).2 := by
  have h := c9_report_exit_codes (some ("main:\nded11c0 [addle-hill]\n\n"))
    (fun _ => none)
  exact ⟨h.1 (by decide), h.2.2.2 ("ded11c0", "addle-hill") (by decide) rfl⟩

/-- C10: a resolved experiment whose extracted parameter mapping is
present but empty is answered with HTTP 404, exactly like an absent
mapping, never with a 200 response of three empty sections. -/
theorem c10_empty_params_404 (i : String) (exps : List (String × String))
    (doc : List ShowItem) (e : String × String)
    (hres : firstMatch i exps = some e) (hch : e.1 ≠ "")
    (hext : get_experiment_params e.1 doc = some []) :
    get_experiment_parameters i exps doc = .http404NoParams
      ∧ statusCode (get_experiment_parameters i exps doc) = 404
      ∧ ∀ p, get_experiment_parameters i exps doc ≠ .http200 p := by
  have hmain : get_experiment_parameters i exps doc = .http404NoParams := by
    rw [get_experiment_parameters]
    simp [hres, hext, hch]
  refine ⟨hmain, by rw [hmain]; rfl, fun p hc => ?_⟩
  rw [hmain] at hc
  exact ParamsResult.noConfusion hc

def wPy10 : PFile := { data := some [], error := false }

def wRev10 : RevEntry :=
  { rev := some ("abc"), data := some { params := some [("params.yaml", wPy10)] } }

def wDoc10 : List ShowItem := [{ experiments := some [{ revs := some [wRev10] }] }]

/-- C10 witness: a document whose matched revision yields the empty
mapping produces the no-parameters 404. -/
theorem c10_empty_params_404_witness :
    get_experiment_parameters ("exp1") [(("abc" : String), ("exp1" : String))] wDoc10
      = .http404NoParams :=
  (c10_empty_params_404 ("exp1") [("abc", "exp1")] wDoc10 ("abc", "exp1")
    (by decide) (by decide) (by decide)).1
